import Mathlib

/-!
Shallow embedding of the fantasy-webscraper core pipeline
(`app/scraper.py`: `RateLimiter`, `PrizePicksScraper._make_request`,
`PrizePicksScraper.get_sports`, `PrizePicksScraper.get_projections`,
`PrizePicksScraper._refresh_projections_from_api`), with theorems checking
the natural-language specification against the code.

Python floats and timestamps are modelled as rationals (`ℚ`); Python ints
as `Int`/`Nat`; fallible operations as `Option`.
-/

namespace FantasyScraper

/-! ## RateLimiter (scraper.py lines 32-55)

`acquire` takes the current time explicitly (the code reads `time.time()`).
Token counts and times are rationals. -/

structure RateLimiter where
  rate : ℚ
  burst : ℕ
  tokens : ℚ
  last_update : ℚ
deriving DecidableEq, Repr

/-- Constructor `RateLimiter.__init__`: tokens start at `burst`, `last_update` at the
creation time. -/
def RateLimiter.init (rate : ℚ) (burst : ℕ) (t0 : ℚ) : RateLimiter :=
  { rate := rate, burst := burst, tokens := (burst : ℚ), last_update := t0 }

/-- Method `RateLimiter.acquire` at time `now`: refill proportional to elapsed time
capped at `burst`, then either consume one token (returning wait 0) or
return `(1 - tokens) / rate`. -/
def RateLimiter.acquire (s : RateLimiter) (now : ℚ) : RateLimiter × ℚ :=
  let new_tokens := (now - s.last_update) * s.rate
  let tokens := min (s.burst : ℚ) (s.tokens + new_tokens)
  if 1 ≤ tokens then
    ({ s with tokens := tokens - 1, last_update := now }, 0)
  else
    ({ s with tokens := tokens, last_update := now }, (1 - tokens) / s.rate)

/-- Run a sequence of `acquire` calls at the given times; return the final
limiter state and the list of returned wait times. -/
def runAcquires (s : RateLimiter) : List ℚ → RateLimiter × List ℚ
  | [] => (s, [])
  | t :: ts =>
    let p := s.acquire t
    let q := runAcquires p.1 ts
    (q.1, p.2 :: q.2)

/-- Number of zero-wait acquisitions in a list of returned wait times. -/
def zeroWaitCount (ws : List ℚ) : ℕ :=
  ws.countP (fun w => decide (w = 0))

/-- All limiter states along a call sequence (initial state included). -/
def statesAlong (s : RateLimiter) : List ℚ → List RateLimiter
  | [] => [s]
  | t :: ts => s :: statesAlong (s.acquire t).1 ts

/-! ## RetryingTransport (`_make_request`, scraper.py lines 212-301)

The 403 and 429 branches re-enter `_make_request` by recursion with no
attempt counter, so the embedding is step-indexed: `fuel` bounds the number
of recursive re-entries we are willing to unfold, `responses i` is the
upstream status for the i-th attempt, and a `none` result means the call
has neither returned nor raised within `fuel` attempts. -/

inductive UpstreamResp where
  | ok (body : String)
  | forbidden
  | tooMany
  | serverError
deriving DecidableEq, Repr

inductive RequestOutcome where
  | success (body : String)
  | upstreamError
deriving DecidableEq, Repr

/-- Transport `_make_request`, step-indexed. On 403 (`forbidden`) and 429 (`tooMany`)
the code does `return self._make_request(endpoint, params)` with no bound;
other non-2xx statuses raise via `raise_for_status` and are re-raised as an
upstream error. -/
def make_request (responses : ℕ → UpstreamResp) : ℕ → ℕ → Option RequestOutcome
  | _, 0 => none
  | i, fuel + 1 =>
    match responses i with
    | .ok b => some (.success b)
    | .forbidden => make_request responses (i + 1) fuel
    | .tooMany => make_request responses (i + 1) fuel
    | .serverError => some .upstreamError

/-- An upstream that answers HTTP 403 to every attempt. -/
def allForbidden : ℕ → UpstreamResp := fun _ => .forbidden

/-! ## Stored projection documents

A document in the `projections` Mongo collection, as built by
`_refresh_projections_from_api` (scraper.py lines 539-554). `line_score`
(a Python float) is a rational; `start_time` keeps the raw optional ISO
string (its parse to a datetime, falling back to `None` on failure, is not
relevant to any claim); the `last_updated` bookkeeping field is dropped on
read (line 429) and so not modelled. -/

structure PDoc where
  id : String
  player_id : String
  player_name : String
  sport_id : Int
  sport_name : String
  game_id : Option String
  stat_type : String
  line_score : ℚ
  description : Option String
  start_time : Option String
  is_active : Bool
  opponent : Option String
deriving DecidableEq, Repr

/-- Count of the documents whose `sport_id` equals `sid`, i.e. the
`count_documents` call the refresh property is stated with. -/
def countSport (store : List PDoc) (sid : Int) : ℕ :=
  (store.filter (fun d => decide (d.sport_id = sid))).length

/-! ## RelationalDocumentNormalizer
(`_refresh_projections_from_api`, scraper.py lines 486-583) -/

/-- A side-loaded record of the `included` array: its `type`, `id`, and the
attributes the normalizer reads (`attributes.name` for players and leagues,
`attributes.home_team` / `attributes.away_team` for games); a `none`
attribute models the key being absent (the code reads all of them with
`.get`, never raising). -/
structure IncRec where
  type : String
  id : String
  name : Option String
  home_team : Option String
  away_team : Option String
deriving DecidableEq, Repr

/-- A primary record of the `data` array, reduced to the fields the
normalizer touches.  `player_rel` / `league_rel` are
`relationships.new_player.data.id` / `relationships.league.data.id`
(`none` models the key path being absent — a `KeyError` in the code);
`game_rel = some gid` models `"game" in relationships` with non-null data.
`line_score = none` models the attribute being absent (the code defaults it
to `0`); `some none` models a value present but failing `float(...)`
coercion (`ValueError`); `some (some q)` a value coercing to `q`. -/
structure ProjRecord where
  id : String
  player_rel : Option String
  league_rel : Option String
  game_rel : Option String
  stat_type : Option String
  line_score : Option (Option ℚ)
  description : Option String
  start_time : Option String
  is_active : Option Bool
deriving DecidableEq, Repr

/-- Coercion `float(proj_data["attributes"].get("line_score", 0))`: absent defaults
to `0`; an uncoercible value fails the record. -/
def floatCoerce : Option (Option ℚ) → Option ℚ
  | none => some 0
  | some none => none
  | some (some q) => some q

/-- Accumulating decimal-digit parser: `none` as soon as a non-digit
appears. -/
def digitsVal : List Char → ℕ → Option ℕ
  | [], acc => some acc
  | c :: cs, acc =>
    if c.isDigit then digitsVal cs (acc * 10 + (c.toNat - 48)) else none

/-- Python `int(...)` on a decimal string: an optional sign followed by at least
one digit (the Python builtin also strips whitespace and underscores,
which the API's numeric ids never contain); anything else raises
`ValueError`, modelled as `none`. -/
def parseInt (s : String) : Option Int :=
  match s.toList with
  | [] => none
  | '-' :: cs => if cs.isEmpty then none else (digitsVal cs 0).map (fun n => -(n : Int))
  | '+' :: cs => if cs.isEmpty then none else (digitsVal cs 0).map (fun n => (n : Int))
  | c :: cs => (digitsVal (c :: cs) 0).map (fun n => (n : Int))

/-- The per-type lookup dicts built from `included` (scraper.py lines
491-501): `players_dict[id] = rec` for `type == "new_player"`, etc.  The
list is reversed so that `List.lookup` finds the record a Python dict
would keep (the last occurrence of a duplicated id). -/
def typedLookup (included : List IncRec) (ty : String) : List (String × IncRec) :=
  ((included.filter (fun r => r.type == ty)).map (fun r => (r.id, r))).reverse

/-- The body of the per-record `try` block (scraper.py lines 510-583):
`none` when the record is skipped (missing required relationship key,
`int(league_id)` failure, or `line_score` coercion failure), otherwise the
projection document it contributes.  Missing side-loaded records fall back
to `{}` via `dict.get`, yielding the placeholder values. -/
def normalizeRecord (players leagues games : List (String × IncRec))
    (r : ProjRecord) : Option PDoc :=
  match r.player_rel with
  | none => none
  | some player_id =>
    match r.league_rel with
    | none => none
    | some league_id =>
      match parseInt league_id with
      | none => none
      | some sport_id =>
        match floatCoerce r.line_score with
        | none => none
        | some line_score =>
          let player_data := players.lookup player_id
          let league_data := leagues.lookup league_id
          let game_data := match r.game_rel with
            | some gid => games.lookup gid
            | none => none
          some {
            id := r.id
            player_id := player_id
            player_name := (player_data.bind (·.name)).getD "Unknown Player"
            sport_id := sport_id
            sport_name := (league_data.bind (·.name)).getD "Unknown"
            game_id := r.game_rel
            stat_type := r.stat_type.getD "Unknown"
            line_score := line_score
            description := r.description
            start_time := r.start_time
            is_active := r.is_active.getD true
            opponent := game_data.bind (·.away_team) }

/-- The loop over `response["data"]`: each record is normalized inside its
own `try`/`except`, a failing record is skipped and the loop continues. -/
def normalizeBatch (players leagues games : List (String × IncRec))
    (rs : List ProjRecord) : List PDoc :=
  rs.filterMap (normalizeRecord players leagues games)

/-- The store update of `_refresh_projections_from_api` (scraper.py lines
585-591): only when `projection_docs` is non-empty, delete every document
with the requested `sport_id` and insert the new documents. -/
def applyRefresh (store : List PDoc) (sport_id : Int)
    (projection_docs : List PDoc) : List PDoc :=
  if projection_docs.isEmpty then store
  else (store.filter (fun d => decide (d.sport_id ≠ sport_id))) ++ projection_docs

/-! ## Read path (`get_projections`, scraper.py lines 375-461)

The Mongo query built at lines 399-406: each filter key is added only when
the Python value is truthy (`if sport_id:` drops both `None` and `0`;
`if player_name:` / `if stat_type:` drop both `None` and `""`).  The
`player_name` filter is `{"$regex": name, "$options": "i"}` — for
metacharacter-free names, a case-insensitive substring match; the
`stat_type` filter is plain (case-sensitive) equality. -/

def lowerChars (s : String) : List Char := s.toList.map Char.toLower

/-- Case-insensitive substring test (the `$regex`/`"i"` match for a
metacharacter-free pattern). -/
def containsCI (hay pat : String) : Bool :=
  decide (lowerChars pat <:+: lowerChars hay)

/-- Whether a stored document matches the query built by `get_projections`
from the three optional filters. -/
def matchesQuery (d : PDoc) (sport_id : Option Int)
    (player_name stat_type : Option String) : Bool :=
  (match sport_id with
   | none => true
   | some sid => if sid = 0 then true else decide (d.sport_id = sid)) &&
  (match player_name with
   | none => true
   | some pn => if pn = "" then true else containsCI d.player_name pn) &&
  (match stat_type with
   | none => true
   | some st => if st = "" then true else decide (d.stat_type = st))

/-- The pagination metadata dictionary (scraper.py lines 439-454). -/
structure Pagination where
  page : ℕ
  page_size : ℕ
  total_count : ℕ
  total_pages : ℕ
  has_next : Bool
  has_prev : Bool
deriving DecidableEq, Repr

/-- The value returned by `get_projections`: the paginated envelope when
both `page` and `page_size` were given, else the full list with its total
count (`pagination = none`). -/
structure ProjectionsResult where
  items : List PDoc
  total_count : ℕ
  pagination : Option Pagination
deriving DecidableEq, Repr

/-- The pure read of `get_projections` against the projections store:
count the matching documents, then either slice with
`skip = (page - 1) * page_size` / `limit = page_size` and attach the
pagination metadata (`total_pages` by ceiling division, `has_next`,
`has_prev`), or return everything. -/
def get_projections_read (store : List PDoc) (sport_id : Option Int)
    (player_name stat_type : Option String)
    (page page_size : Option ℕ) : ProjectionsResult :=
  let matched := store.filter (fun d => matchesQuery d sport_id player_name stat_type)
  let total_count := matched.length
  match page, page_size with
  | some p, some ps =>
    let skip := (p - 1) * ps
    let items := (matched.drop skip).take ps
    let total_pages := (total_count + ps - 1) / ps
    { items := items
      total_count := total_count
      pagination := some {
        page := p
        page_size := ps
        total_count := total_count
        total_pages := total_pages
        has_next := decide (p < total_pages)
        has_prev := decide (1 < p) } }
  | _, _ => { items := matched, total_count := total_count, pagination := none }

/-! ## Scraper state: sports cache and refresh accounting

`PrizePicksScraper` keeps a sports cache (`_sports_cache`,
`_sports_cache_time`, scraper.py lines 95-96, 303-336) with a 15-minute
expiry (`CACHE_EXPIRY`, line 103).  The class also declares
`_projections_cache` / `_projections_cache_time` (lines 97-98) but no
method ever reads or writes them, so they carry no state.  `upstreamCalls`
counts invocations of `_make_request`, i.e. contacts to the upstream
service. -/

structure SportRec where
  id : Int
  name : String
  active : Bool
deriving DecidableEq, Repr

structure ScraperState where
  projStore : List PDoc
  sportsCache : Option (List SportRec)
  sportsCacheTime : ℚ
  upstreamCalls : ℕ
deriving DecidableEq, Repr

/-- Cache expiry `CACHE_EXPIRY = 15 * 60` seconds. -/
def CACHE_EXPIRY : ℚ := 15 * 60

/-- Method `get_sports` (scraper.py lines 303-336): serve the in-memory cache when
it is truthy (non-`None` and non-empty) and younger than `CACHE_EXPIRY`;
otherwise fetch from the upstream `leagues` endpoint (one `_make_request`)
and overwrite the cache.  `upstream` stands for the parsed fetch result. -/
def get_sports (st : ScraperState) (now : ℚ) (upstream : List SportRec) :
    List SportRec × ScraperState :=
  let cacheTruthy := match st.sportsCache with
    | some l => !l.isEmpty
    | none => false
  if cacheTruthy && decide (now - st.sportsCacheTime < CACHE_EXPIRY) then
    (st.sportsCache.getD [], st)
  else
    (upstream, { st with
      sportsCache := some upstream
      sportsCacheTime := now
      upstreamCalls := st.upstreamCalls + 1 })

/-- Method `get_projections` (scraper.py lines 375-461) as a state transformer:
the body only queries the Mongo store — it performs no `_make_request`, no
call to `_refresh_projections_from_api`, and no cache-timestamp check; the
`force_refresh` argument is accepted but never read. -/
def get_projections (st : ScraperState) (sport_id : Option Int)
    (player_name stat_type : Option String) (force_refresh : Bool)
    (page page_size : Option ℕ) : ProjectionsResult × ScraperState :=
  let _ := force_refresh
  (get_projections_read st.projStore sport_id player_name stat_type page page_size, st)

/-! ## Concrete fixtures used by witnesses and counterexamples -/

/-- A stored projection document whose stat type is the lower-case
`"points"`. -/
def pointsDoc : PDoc :=
  { id := "old-1"
    player_id := "p1"
    player_name := "LeBron James"
    sport_id := 7
    sport_name := "NBA"
    game_id := none
    stat_type := "points"
    line_score := 25
    description := none
    start_time := none
    is_active := true
    opponent := none }

/-- A well-formed primary record (all required keys present, numeric fields
coercible). -/
def goodRec : ProjRecord :=
  { id := "1001"
    player_rel := some "p1"
    league_rel := some "7"
    game_rel := none
    stat_type := some "points"
    line_score := some (some 25)
    description := none
    start_time := none
    is_active := some true }

/-- A malformed primary record: the `relationships.new_player` key path is
absent, so processing it raises `KeyError` in the code. -/
def badRec : ProjRecord :=
  { id := "1002"
    player_rel := none
    league_rel := some "7"
    game_rel := none
    stat_type := some "rebounds"
    line_score := some (some 5)
    description := none
    start_time := none
    is_active := some true }

/-- A stored projection document for a different sport (id 9). -/
def soccerDoc : PDoc :=
  { id := "s-1"
    player_id := "p9"
    player_name := "Lionel Messi"
    sport_id := 9
    sport_name := "Soccer"
    game_id := none
    stat_type := "goals"
    line_score := 1
    description := none
    start_time := none
    is_active := true
    opponent := none }

/-- A side-loaded record unrelated to the fixtures above (a league with a
different id). -/
def unrelatedInc : IncRec :=
  { type := "league"
    id := "9"
    name := some "Soccer"
    home_team := none
    away_team := none }

/-- The document `goodRec` normalizes to when no side-loaded records are
available. -/
def goodDoc : PDoc :=
  { id := "1001"
    player_id := "p1"
    player_name := "Unknown Player"
    sport_id := 7
    sport_name := "Unknown"
    game_id := none
    stat_type := "points"
    line_score := 25
    description := none
    start_time := none
    is_active := true
    opponent := none }

/-! ## C2 — bounded 403 retries (code_bug) -/

/-- C2: the spec requires the transport to retry a 403 only a bounded
number of times and then raise the upstream error; the code instead
re-enters `_make_request` recursively with no attempt counter.  Evaluated
at the failing input (an upstream answering 403 to every attempt): for
every recursion budget `fuel`, the call has neither returned a body nor
raised — the recursion is unbounded and never terminates by raising. -/
theorem make_request_all_forbidden_never_terminates :
    ∀ fuel i, make_request allForbidden i fuel = none := by
  intro fuel
  induction fuel with
  | zero => intro i; rfl
  | succ n ih => intro i; simpa [make_request, allForbidden] using ih (i + 1)

/-! ## C4 — wholesale replace (corrected) -/

/-- C4 counterexample: when the freshly normalized set is empty the code
skips the delete (`if projection_docs:` guard, scraper.py line 586), so a
previously stored projection for the sport survives and the stored count
is 1, not the 0 records normalized in that pass — refuting the claim's
"including when the freshly normalized set is empty" clause. -/
theorem refresh_empty_pass_keeps_old_rows :
    applyRefresh [pointsDoc] 7 [] = [pointsDoc] ∧
    countSport (applyRefresh [pointsDoc] 7 []) 7 = 1 ∧
    ¬ countSport (applyRefresh [pointsDoc] 7 []) 7 = List.length ([] : List PDoc) := by
  refine ⟨rfl, by decide, by decide⟩

/-- C4 amended: a refresh is a wholesale replace only when the freshly
normalized set is non-empty — then all existing rows for the sport are
deleted, the new set inserted, and the stored count for the sport equals
the number of records normalized in that pass; when the normalized set is
empty the store is left unchanged. -/
theorem refresh_nonempty_pass_replaces (store : List PDoc) (sport_id : Int)
    (docs : List PDoc) (hall : ∀ d ∈ docs, d.sport_id = sport_id) :
    (docs = [] → applyRefresh store sport_id docs = store) ∧
    (docs ≠ [] → countSport (applyRefresh store sport_id docs) sport_id = docs.length) := by
  constructor
  · rintro rfl
    simp [applyRefresh]
  · intro hne
    unfold applyRefresh
    rw [if_neg (by simpa using hne)]
    unfold countSport
    rw [List.filter_append, List.length_append]
    have h1 : (store.filter (fun d => decide (d.sport_id ≠ sport_id))).filter
        (fun d => decide (d.sport_id = sport_id)) = [] := by
      rw [List.filter_filter]
      apply List.filter_eq_nil_iff.2
      intro d _
      by_cases hd : d.sport_id = sport_id <;> simp [hd]
    have h2 : docs.filter (fun d => decide (d.sport_id = sport_id)) = docs := by
      apply List.filter_eq_self.2
      intro d hd
      simp [hall d hd]
    rw [h1, h2]
    simp

/-- C4 witness: the amended theorem applied at a concrete store and pass. -/
theorem refresh_nonempty_pass_replaces_witness :
    applyRefresh [] 7 [] = [] ∧
    countSport (applyRefresh [pointsDoc] 7 [goodDoc]) 7 = 1 :=
  ⟨(refresh_nonempty_pass_replaces [] 7 [] (by simp)).1 rfl,
   (refresh_nonempty_pass_replaces [pointsDoc] 7 [goodDoc]
      (by intro d hd; simp at hd; subst hd; rfl)).2 (by simp)⟩

/-! ## C5 — filter semantics (corrected) -/

/-- C5 counterexample: `get_projections` puts the raw `stat_type` value
into the Mongo query as a plain equality (scraper.py line 406), which is
case-sensitive: the filter `"Points"` does not match the stored record
whose stat type is `"points"`, even though the two are equal
case-insensitively — refuting the claimed case-insensitive stat-type
match. -/
theorem stat_type_filter_case_sensitive :
    lowerChars "Points" = lowerChars "points" ∧
    matchesQuery pointsDoc none none (some "Points") = false ∧
    (get_projections_read [pointsDoc] none none (some "Points") none none).items = [] := by
  refine ⟨by decide, by decide, by decide⟩

/-- C5 amended: the stat-type filter is a case-sensitive exact match (the
query keeps exactly the records whose stored stat type equals the filter
string verbatim), while the player-name filter matches by case-insensitive
substring, as claimed. -/
theorem filters_stat_exact_player_substring (store : List PDoc) (st pn : String)
    (hst : st ≠ "") (hpn : pn ≠ "") :
    (get_projections_read store none none (some st) none none).items
        = store.filter (fun d => decide (d.stat_type = st)) ∧
    (get_projections_read store none (some pn) none none none).items
        = store.filter (fun d => containsCI d.player_name pn) := by
  constructor
  · simp [get_projections_read, matchesQuery, hst]
  · simp [get_projections_read, matchesQuery, hpn]

/-- C5 witness: the amended theorem applied at a concrete store. -/
theorem filters_stat_exact_player_substring_witness :
    (get_projections_read [pointsDoc] none none (some "points") none none).items
        = [pointsDoc].filter (fun d => decide (d.stat_type = "points")) ∧
    (get_projections_read [pointsDoc] none (some "james") none none none).items
        = [pointsDoc].filter (fun d => containsCI d.player_name "james") :=
  ⟨(filters_stat_exact_player_substring [pointsDoc] "points" "james"
      (by decide) (by decide)).1,
   (filters_stat_exact_player_substring [pointsDoc] "points" "james"
      (by decide) (by decide)).2⟩

/-! ## C7 — per-record failure isolation (confirmed) -/

/-- The length of `filterMap` counts the inputs on which `f` succeeds. -/
theorem length_filterMap_eq_countP {α β : Type} (f : α → Option β) (l : List α) :
    (l.filterMap f).length = l.countP (fun a => (f a).isSome) := by
  induction l with
  | nil => rfl
  | cons a l ih =>
    cases h : f a <;>
      simp [List.filterMap_cons, h, List.countP_cons, ih]

/-- C7: normalization processes each primary record independently — the
batch output has exactly one document per record whose normalization
succeeds, every successfully normalized record's document is in the batch
output even when other records of the batch are malformed, and a record
missing a required relationship key or failing numeric coercion is skipped
(contributes `none`) without aborting the batch. -/
theorem batch_isolates_record_failures (players leagues games : List (String × IncRec))
    (rs : List ProjRecord) :
    (normalizeBatch players leagues games rs).length
        = rs.countP (fun r => (normalizeRecord players leagues games r).isSome) ∧
    (∀ r ∈ rs, ∀ p, normalizeRecord players leagues games r = some p →
        p ∈ normalizeBatch players leagues games rs) ∧
    (∀ r : ProjRecord,
        r.player_rel = none ∨ r.league_rel = none ∨ floatCoerce r.line_score = none →
        normalizeRecord players leagues games r = none) := by
  refine ⟨length_filterMap_eq_countP _ rs, ?_, ?_⟩
  · intro r hr p hp
    exact List.mem_filterMap.2 ⟨r, hr, hp⟩
  · intro r h
    rcases h with h | h | h
    · simp [normalizeRecord, h]
    · cases hp : r.player_rel <;> simp [normalizeRecord, hp, h]
    · cases hp : r.player_rel with
      | none => simp [normalizeRecord, hp]
      | some pid =>
        cases hl : r.league_rel with
        | none => simp [normalizeRecord, hp, hl]
        | some lid =>
          cases hi : parseInt lid <;> simp [normalizeRecord, hp, hl, hi, h]

/-- C7 witness: in a batch holding one well-formed and one malformed
record, the well-formed record's document is produced. -/
theorem batch_isolates_record_failures_witness :
    goodDoc ∈ normalizeBatch [] [] [] [goodRec, badRec] :=
  (batch_isolates_record_failures [] [] [] [goodRec, badRec]).2.1
    goodRec (by decide) goodDoc (by decide)

/-! ## C6 — placeholders for missing side-loaded records (confirmed) -/

/-- Association-list lookup misses every key that no pair carries. -/
theorem lookup_eq_none_of_forall {l : List (String × IncRec)} {k : String}
    (h : ∀ p ∈ l, p.1 ≠ k) : l.lookup k = none := by
  induction l with
  | nil => rfl
  | cons a l ih =>
    obtain ⟨a1, a2⟩ := a
    have ha : a1 ≠ k := h (a1, a2) (by simp)
    rw [List.lookup_cons, beq_false_of_ne (fun e => ha e.symm)]
    simpa using ih (fun p hp => h p (by simp [hp]))

/-- The per-type dict built from `included` has no entry for an id that no
record of that type carries. -/
theorem typedLookup_eq_none (included : List IncRec) (ty k : String)
    (h : ∀ rec ∈ included, rec.type ≠ ty ∨ rec.id ≠ k) :
    (typedLookup included ty).lookup k = none := by
  apply lookup_eq_none_of_forall
  intro p hp
  unfold typedLookup at hp
  rw [List.mem_reverse] at hp
  obtain ⟨rec, hrec, hmap⟩ := List.mem_map.1 hp
  obtain ⟨hmem, hty⟩ := List.mem_filter.1 hrec
  rcases h rec hmem with hne | hne
  · exact absurd (by simpa using hty) hne
  · subst hmap
    simpa using hne

/-- C6: a primary record whose required keys are present and whose numeric
fields coerce is normalized into a projection document even when its
referenced player and league records are absent from the side-loaded
`included` array (and whatever the situation of its game reference): the
document is produced with the placeholder player name "Unknown Player" and
sport name "Unknown" rather than the record being dropped or an error
raised. -/
theorem missing_included_yields_placeholders (included : List IncRec)
    (r : ProjRecord) (pid lid : String) (sid : Int) (ls : ℚ)
    (hp : r.player_rel = some pid) (hl : r.league_rel = some lid)
    (hi : parseInt lid = some sid) (hc : floatCoerce r.line_score = some ls)
    (hpm : ∀ rec ∈ included, rec.type ≠ "new_player" ∨ rec.id ≠ pid)
    (hlm : ∀ rec ∈ included, rec.type ≠ "league" ∨ rec.id ≠ lid) :
    ∃ p : PDoc,
      normalizeRecord (typedLookup included "new_player")
        (typedLookup included "league") (typedLookup included "game") r = some p ∧
      p.player_name = "Unknown Player" ∧ p.sport_name = "Unknown" := by
  have h1 := typedLookup_eq_none included "new_player" pid hpm
  have h2 := typedLookup_eq_none included "league" lid hlm
  refine ⟨{
      id := r.id
      player_id := pid
      player_name := "Unknown Player"
      sport_id := sid
      sport_name := "Unknown"
      game_id := r.game_rel
      stat_type := r.stat_type.getD "Unknown"
      line_score := ls
      description := r.description
      start_time := r.start_time
      is_active := r.is_active.getD true
      opponent := (match r.game_rel with
        | some gid => (typedLookup included "game").lookup gid
        | none => none).bind (·.away_team) }, ?_, rfl, rfl⟩
  simp [normalizeRecord, hp, hl, hi, hc, h1, h2]

/-- C6 witness: a concrete record whose player, league and game references
all miss the (here non-empty but unrelated) `included` array. -/
theorem missing_included_yields_placeholders_witness :
    ∃ p : PDoc,
      normalizeRecord (typedLookup [unrelatedInc] "new_player")
        (typedLookup [unrelatedInc] "league")
        (typedLookup [unrelatedInc] "game") goodRec = some p ∧
      p.player_name = "Unknown Player" ∧ p.sport_name = "Unknown" :=
  missing_included_yields_placeholders [unrelatedInc] goodRec "p1" "7" 7 25
    rfl rfl (by decide) rfl (by decide) (by decide)

/-! ## C10 — refresh does not touch other sports (confirmed) -/

/-- Every document a record normalizes to carries as `sport_id` the
integer parse of that record's own league relationship id. -/
theorem normalizeRecord_sport_id (players leagues games : List (String × IncRec))
    (r : ProjRecord) (p : PDoc)
    (h : normalizeRecord players leagues games r = some p) :
    ∃ lid, r.league_rel = some lid ∧ parseInt lid = some p.sport_id := by
  cases hp : r.player_rel with
  | none => simp [normalizeRecord, hp] at h
  | some pid =>
    cases hl : r.league_rel with
    | none => simp [normalizeRecord, hp, hl] at h
    | some lid =>
      cases hi : parseInt lid with
      | none => simp [normalizeRecord, hp, hl, hi] at h
      | some sid =>
        cases hc : floatCoerce r.line_score with
        | none => simp [normalizeRecord, hp, hl, hi, hc] at h
        | some ls =>
          refine ⟨lid, rfl, ?_⟩
          simp [normalizeRecord, hp, hl, hi, hc] at h
          rw [hi, ← h]

/-- C10: a refresh of one sport in which every fetched record's league id
parses to the requested sport id leaves the projection documents of every
other sport unchanged — the delete targets only documents whose `sport_id`
equals the requested sport id, and every inserted document carries its own
record's league id as `sport_id`. -/
theorem refresh_preserves_other_sports (store : List PDoc)
    (players leagues games : List (String × IncRec)) (rs : List ProjRecord)
    (sport_id other : Int) (hne : other ≠ sport_id)
    (hall : ∀ r ∈ rs, ∀ lid sid, r.league_rel = some lid →
        parseInt lid = some sid → sid = sport_id) :
    (applyRefresh store sport_id (normalizeBatch players leagues games rs)).filter
        (fun d => decide (d.sport_id = other))
      = store.filter (fun d => decide (d.sport_id = other)) := by
  unfold applyRefresh
  split
  · rfl
  · rw [List.filter_append]
    have hbatch : (normalizeBatch players leagues games rs).filter
        (fun d => decide (d.sport_id = other)) = [] := by
      apply List.filter_eq_nil_iff.2
      intro p hp
      obtain ⟨r, hr, hnorm⟩ := List.mem_filterMap.1 hp
      obtain ⟨lid, hlid, hint⟩ := normalizeRecord_sport_id players leagues games r p hnorm
      have hps : p.sport_id = sport_id := hall r hr lid p.sport_id hlid hint
      simp [hps]
      exact fun e => hne e.symm
    rw [hbatch, List.append_nil, List.filter_filter]
    apply List.filter_congr
    intro d _
    by_cases hd : d.sport_id = other <;> simp [hd, hne]

/-- C10 witness: a concrete refresh of sport 7 leaves a sport-9 document's
presence in the store unchanged. -/
theorem refresh_preserves_other_sports_witness :
    (applyRefresh [soccerDoc] 7 (normalizeBatch [] [] [] [goodRec, badRec])).filter
        (fun d => decide (d.sport_id = 9))
      = [soccerDoc].filter (fun d => decide (d.sport_id = 9)) :=
  refresh_preserves_other_sports [soccerDoc] [] [] [] [goodRec, badRec] 7 9
    (by decide)
    (by
      intro r hr lid sid hl hi
      simp [goodRec, badRec] at hr
      rcases hr with hr | hr <;> subst hr <;>
        simp [goodRec, badRec] at hl <;> subst hl <;>
        simpa [parseInt, digitsVal] using hi.symm)

/-! ## C8 — pagination math (confirmed) -/

/-- The value `(c + ps - 1) / ps` is the ceiling of `c / ps`: the unique value whose
multiple by `ps` first reaches `c`. -/
theorem ceil_div_bounds (c ps : ℕ) (hs : 1 ≤ ps) :
    c ≤ ((c + ps - 1) / ps) * ps ∧ ((c + ps - 1) / ps) * ps < c + ps := by
  have hdm := Nat.div_add_mod (c + ps - 1) ps
  have hmod : (c + ps - 1) % ps < ps := Nat.mod_lt _ hs
  have hcomm : ((c + ps - 1) / ps) * ps = ps * ((c + ps - 1) / ps) := Nat.mul_comm _ _
  rw [hcomm]
  generalize ps * ((c + ps - 1) / ps) = A at hdm ⊢
  omega

/-- C8: with both `page ≥ 1` and `pageSize ≥ 1` given, the result slice
starts at offset `(page - 1) * pageSize` and is at most `pageSize` long;
`total_pages` is the ceiling of the matching count divided by `pageSize`
(characterized by its two bounding inequalities); `has_next` holds exactly
when `page < total_pages` and `has_prev` exactly when `page > 1`; with the
parameters omitted the full matching set is returned with its total count
and no pagination envelope; and on a 95-document store with page size 20,
`total_pages = 5`, page 5 has `has_next = false, has_prev = true`, and
page 1 has `has_prev = false`. -/
theorem pagination_read_math (store : List PDoc) (sport_id : Option Int)
    (pn st : Option String) (page ps : ℕ) (hpage : 1 ≤ page) (hs : 1 ≤ ps) :
    (get_projections_read store sport_id pn st (some page) (some ps)).items
        = ((store.filter (fun d => matchesQuery d sport_id pn st)).drop
            ((page - 1) * ps)).take ps ∧
    (get_projections_read store sport_id pn st (some page) (some ps)).items.length ≤ ps ∧
    (∀ meta, (get_projections_read store sport_id pn st (some page) (some ps)).pagination
          = some meta →
        meta.total_count = (store.filter (fun d => matchesQuery d sport_id pn st)).length ∧
        meta.total_count ≤ meta.total_pages * ps ∧
        meta.total_pages * ps < meta.total_count + ps ∧
        (meta.has_next = true ↔ page < meta.total_pages) ∧
        (meta.has_prev = true ↔ 1 < page)) ∧
    ((get_projections_read store sport_id pn st none none).items
        = store.filter (fun d => matchesQuery d sport_id pn st) ∧
      (get_projections_read store sport_id pn st none none).total_count
        = (store.filter (fun d => matchesQuery d sport_id pn st)).length ∧
      (get_projections_read store sport_id pn st none none).pagination = none) ∧
    ((get_projections_read (List.replicate 95 pointsDoc) none none none
        (some 5) (some 20)).pagination
      = some { page := 5, page_size := 20, total_count := 95, total_pages := 5,
               has_next := false, has_prev := true }) ∧
    ((get_projections_read (List.replicate 95 pointsDoc) none none none
        (some 1) (some 20)).pagination
      = some { page := 1, page_size := 20, total_count := 95, total_pages := 5,
               has_next := true, has_prev := false }) := by
  refine ⟨rfl, ?_, ?_, ⟨rfl, rfl, rfl⟩, by decide, by decide⟩
  · have h1 : (get_projections_read store sport_id pn st (some page) (some ps)).items
        = ((store.filter (fun d => matchesQuery d sport_id pn st)).drop
            ((page - 1) * ps)).take ps := rfl
    rw [h1]
    exact List.length_take_le ps _
  · intro meta hmeta
    have hinj := Option.some.inj hmeta
    subst hinj
    obtain ⟨hle, hlt⟩ := ceil_div_bounds
      (store.filter (fun d => matchesQuery d sport_id pn st)).length ps hs
    exact ⟨rfl, hle, hlt, by simp, by simp⟩

/-- C8 witness: the theorem applied at a concrete store, page and page
size. -/
theorem pagination_read_math_witness :
    1 ≤ 2 ∧
    (get_projections_read (List.replicate 5 pointsDoc) none none none
        (some 2) (some 2)).items.length ≤ 2 :=
  ⟨by decide,
   (pagination_read_math (List.replicate 5 pointsDoc) none none none 2 2
      (by decide) (by decide)).2.1⟩

/-! ## RateLimiter lemmas for C3 and C9 -/

/-- Equation for `acquire` with its local bindings inlined, for case analysis. -/
theorem acquire_eq (s : RateLimiter) (now : ℚ) :
    s.acquire now =
      if 1 ≤ min (s.burst : ℚ) (s.tokens + (now - s.last_update) * s.rate) then
        ({ s with
            tokens := min (s.burst : ℚ) (s.tokens + (now - s.last_update) * s.rate) - 1
            last_update := now }, 0)
      else
        ({ s with
            tokens := min (s.burst : ℚ) (s.tokens + (now - s.last_update) * s.rate)
            last_update := now },
          (1 - min (s.burst : ℚ) (s.tokens + (now - s.last_update) * s.rate)) / s.rate) :=
  rfl

theorem acquire_rate (s : RateLimiter) (now : ℚ) :
    ((s.acquire now).1).rate = s.rate := by
  rw [acquire_eq]
  split <;> rfl

theorem acquire_burst (s : RateLimiter) (now : ℚ) :
    ((s.acquire now).1).burst = s.burst := by
  rw [acquire_eq]
  split <;> rfl

theorem acquire_last (s : RateLimiter) (now : ℚ) :
    ((s.acquire now).1).last_update = now := by
  rw [acquire_eq]
  split <;> rfl

/-- One `acquire` keeps the token count in `[0, burst]` when time moved
forward. -/
theorem acquire_tokens_bounds (s : RateLimiter) (now : ℚ)
    (h0 : 0 ≤ s.tokens) (hr : 0 ≤ s.rate) (ht : s.last_update ≤ now) :
    0 ≤ ((s.acquire now).1).tokens ∧ ((s.acquire now).1).tokens ≤ (s.burst : ℚ) := by
  have hrefill : (0 : ℚ) ≤ (now - s.last_update) * s.rate :=
    mul_nonneg (sub_nonneg.2 ht) hr
  have hT0 : (0 : ℚ) ≤ min (s.burst : ℚ) (s.tokens + (now - s.last_update) * s.rate) :=
    le_min (by positivity) (by linarith)
  have hTb : min (s.burst : ℚ) (s.tokens + (now - s.last_update) * s.rate) ≤ (s.burst : ℚ) :=
    min_le_left _ _
  rw [acquire_eq]
  split
  next h => exact ⟨by dsimp only; linarith, by dsimp only; linarith⟩
  next h => exact ⟨hT0, hTb⟩

/-- One `acquire` books at most the refill against the token budget: the
new token count plus the zero-wait indicator is bounded by the old count
plus `elapsed * rate`. -/
theorem acquire_account (s : RateLimiter) (now : ℚ)
    (hr : 0 < s.rate) (ht : s.last_update ≤ now) :
    ((s.acquire now).1).tokens + (if (s.acquire now).2 = 0 then (1 : ℚ) else 0)
      ≤ s.tokens + (now - s.last_update) * s.rate := by
  have hTle : min (s.burst : ℚ) (s.tokens + (now - s.last_update) * s.rate)
      ≤ s.tokens + (now - s.last_update) * s.rate := min_le_right _ _
  rw [acquire_eq]
  split
  next h =>
    dsimp only
    rw [if_pos rfl]
    linarith
  next h =>
    have h1 : min (s.burst : ℚ) (s.tokens + (now - s.last_update) * s.rate) < 1 :=
      lt_of_not_le h
    have hpos : 0 < (1 - min (s.burst : ℚ)
        (s.tokens + (now - s.last_update) * s.rate)) / s.rate :=
      div_pos (by linarith) hr
    dsimp only
    rw [if_neg (ne_of_gt hpos)]
    linarith

/-- Simp lemmas for `runAcquires` on cons. -/
theorem runAcquires_cons (s : RateLimiter) (t : ℚ) (ts : List ℚ) :
    runAcquires s (t :: ts)
      = ((runAcquires (s.acquire t).1 ts).1,
         (s.acquire t).2 :: (runAcquires (s.acquire t).1 ts).2) := rfl

/-- Main accounting invariant for a monotone call sequence: the final
token count stays non-negative, `last_update` tracks the last call time,
and the zero-wait count plus the final token count never exceeds the
initial count plus the total refill. -/
theorem runAcquires_spec (ts : List ℚ) : ∀ s : RateLimiter,
    List.Chain (· ≤ ·) s.last_update ts → 0 < s.rate → 0 ≤ s.tokens →
    0 ≤ (runAcquires s ts).1.tokens ∧
    (runAcquires s ts).1.last_update = ts.getLastD s.last_update ∧
    ((zeroWaitCount (runAcquires s ts).2 : ℚ) + (runAcquires s ts).1.tokens
      ≤ s.tokens + ((runAcquires s ts).1.last_update - s.last_update) * s.rate) := by
  induction ts with
  | nil =>
    intro s _ _ h0
    refine ⟨h0, rfl, ?_⟩
    simp [runAcquires, zeroWaitCount]
  | cons t ts ih =>
    intro s hchain hr h0
    rw [List.chain_cons] at hchain
    obtain ⟨hle, hchain1⟩ := hchain
    have hb := acquire_tokens_bounds s t h0 (le_of_lt hr) hle
    have hacc := acquire_account s t hr hle
    have hchain2 : List.Chain (· ≤ ·) ((s.acquire t).1).last_update ts := by
      rw [acquire_last]
      exact hchain1
    have hrec := ih (s.acquire t).1 hchain2 (by rw [acquire_rate]; exact hr) hb.1
    obtain ⟨hrec0, hreclast, hrecacc⟩ := hrec
    rw [acquire_rate, acquire_last] at hrecacc
    rw [acquire_last] at hreclast
    refine ⟨by rw [runAcquires_cons]; exact hrec0, ?_, ?_⟩
    · rw [runAcquires_cons, List.getLastD_cons]
      exact hreclast
    · rw [runAcquires_cons]
      dsimp only
      unfold zeroWaitCount
      rw [List.countP_cons]
      unfold zeroWaitCount at hrecacc
      have hsplit :
          ((runAcquires (s.acquire t).1 ts).1.last_update - s.last_update) * s.rate
            = ((runAcquires (s.acquire t).1 ts).1.last_update - t) * s.rate
              + (t - s.last_update) * s.rate := by
        ring
      push_cast
      simp only [decide_eq_true_eq]
      by_cases hz : (s.acquire t).2 = 0
      · rw [if_pos hz] at hacc
        rw [if_pos hz]
        linarith [hrecacc, hacc, hsplit]
      · rw [if_neg hz] at hacc
        rw [if_neg hz]
        linarith [hrecacc, hacc, hsplit]

/-! ## C3 — token bucket zero-wait bound (confirmed) -/

/-- C3: each `acquire` call refills proportionally to elapsed time (capped
at burst), returns zero wait exactly when the refilled count reaches one
token, and otherwise returns `(1 - tokens) / rate`; consequently, over any
monotone call sequence starting from a freshly created limiter, the number
of zero-wait acquisitions never exceeds `burst + floor(elapsed * rate)`. -/
theorem token_bucket_zero_wait_bound (rate : ℚ) (burst : ℕ) (t0 : ℚ) (ts : List ℚ)
    (hr : 0 < rate) (hchain : List.Chain (· ≤ ·) t0 ts) :
    (∀ (s : RateLimiter) (now : ℚ), 0 < s.rate →
      (((s.acquire now).2 = 0 ↔
          1 ≤ min (s.burst : ℚ) (s.tokens + (now - s.last_update) * s.rate)) ∧
        (¬ 1 ≤ min (s.burst : ℚ) (s.tokens + (now - s.last_update) * s.rate) →
          (s.acquire now).2
            = (1 - min (s.burst : ℚ)
                (s.tokens + (now - s.last_update) * s.rate)) / s.rate))) ∧
    ((zeroWaitCount (runAcquires (RateLimiter.init rate burst t0) ts).2 : ℤ)
        ≤ (burst : ℤ) + ⌊(ts.getLastD t0 - t0) * rate⌋) := by
  constructor
  · intro s now hsr
    constructor
    · rw [acquire_eq]
      split
      next h => simpa using h
      next h =>
        have h1 : min (s.burst : ℚ) (s.tokens + (now - s.last_update) * s.rate) < 1 :=
          lt_of_not_le h
        have hpos : 0 < (1 - min (s.burst : ℚ)
            (s.tokens + (now - s.last_update) * s.rate)) / s.rate :=
          div_pos (by linarith) hsr
        dsimp only
        exact iff_of_false (ne_of_gt hpos) h
    · rw [acquire_eq]
      split
      next h =>
        intro hc
        exact absurd h hc
      next h =>
        intro _
        rfl
  · have hinit0 : (0 : ℚ) ≤ (RateLimiter.init rate burst t0).tokens := by
      simp [RateLimiter.init]
    have hspec := runAcquires_spec ts (RateLimiter.init rate burst t0)
      (by simpa [RateLimiter.init] using hchain)
      (by simpa [RateLimiter.init] using hr) hinit0
    obtain ⟨hpos0, hlast, hacc⟩ := hspec
    rw [hlast] at hacc
    have hT : (RateLimiter.init rate burst t0).tokens = (burst : ℚ) := rfl
    have hL : (RateLimiter.init rate burst t0).last_update = t0 := rfl
    have hR : (RateLimiter.init rate burst t0).rate = rate := rfl
    rw [hT, hL, hR] at hacc
    have hq : ((zeroWaitCount (runAcquires (RateLimiter.init rate burst t0) ts).2 : ℚ))
        ≤ (burst : ℚ) + (ts.getLastD t0 - t0) * rate := by
      linarith [hpos0, hacc]
    have hfl : ((zeroWaitCount (runAcquires (RateLimiter.init rate burst t0) ts).2 : ℤ)
        - (burst : ℤ)) ≤ ⌊(ts.getLastD t0 - t0) * rate⌋ := by
      rw [Int.le_floor]
      push_cast
      linarith [hq]
    linarith [hfl]

/-- C3 witness: the theorem applied to a freshly created limiter with
rate 1 and burst 2 and three simultaneous calls. -/
theorem token_bucket_zero_wait_bound_witness :
    (0 : ℚ) < 1 ∧ List.Chain (· ≤ ·) (0 : ℚ) [0, 0, 0] ∧
    ((zeroWaitCount (runAcquires (RateLimiter.init 1 2 0) [0, 0, 0]).2 : ℤ)
        ≤ (2 : ℤ) + ⌊(([0, 0, 0] : List ℚ).getLastD 0 - 0) * 1⌋) :=
  ⟨by norm_num, by norm_num [List.chain_cons],
   (token_bucket_zero_wait_bound 1 2 0 [0, 0, 0] (by norm_num)
      (by norm_num [List.chain_cons])).2⟩

/-! ## C9 — token count invariant (confirmed) -/

/-- Along any monotone call sequence, every traversed state keeps its
token count in `[0, burst]` and its burst field unchanged. -/
theorem statesAlong_bounds (ts : List ℚ) : ∀ s : RateLimiter,
    List.Chain (· ≤ ·) s.last_update ts → 0 ≤ s.rate → 0 ≤ s.tokens →
    s.tokens ≤ (s.burst : ℚ) →
    ∀ x ∈ statesAlong s ts,
      (0 ≤ x.tokens ∧ x.tokens ≤ (x.burst : ℚ)) ∧ x.burst = s.burst := by
  induction ts with
  | nil =>
    intro s _ _ h0 hb x hx
    simp [statesAlong] at hx
    subst hx
    exact ⟨⟨h0, hb⟩, rfl⟩
  | cons t ts ih =>
    intro s hchain hr h0 hb x hx
    rw [List.chain_cons] at hchain
    obtain ⟨hle, hchain1⟩ := hchain
    simp only [statesAlong, List.mem_cons] at hx
    rcases hx with rfl | hx
    · exact ⟨⟨h0, hb⟩, rfl⟩
    · have hstep := acquire_tokens_bounds s t h0 hr hle
      have hB := acquire_burst s t
      have hres := ih (s.acquire t).1
        (by rw [acquire_last]; exact hchain1)
        (by rw [acquire_rate]; exact hr)
        hstep.1 (by rw [hB]; exact hstep.2) x hx
      exact ⟨hres.1, by rw [hres.2, hB]⟩

/-- C9: starting from a limiter constructed with `rate > 0` and
`burst ≥ 1`, the token count satisfies `0 ≤ tokens ≤ burst` before and
after every `acquire` of any monotone call sequence: the refill is capped
at burst and a token is consumed only when at least one whole token is
available. -/
theorem rate_limiter_tokens_invariant (rate : ℚ) (burst : ℕ) (t0 : ℚ) (ts : List ℚ)
    (hr : 0 < rate) (hb : 1 ≤ burst) (hchain : List.Chain (· ≤ ·) t0 ts) :
    ∀ x ∈ statesAlong (RateLimiter.init rate burst t0) ts,
      0 ≤ x.tokens ∧ x.tokens ≤ (burst : ℚ) := by
  intro x hx
  have h := statesAlong_bounds ts (RateLimiter.init rate burst t0)
    (by simpa [RateLimiter.init] using hchain)
    (le_of_lt (by simpa [RateLimiter.init] using hr))
    (by simp [RateLimiter.init]) (by simp [RateLimiter.init]) x hx
  refine ⟨h.1.1, ?_⟩
  have hxb : x.burst = burst := by simpa [RateLimiter.init] using h.2
  rw [← hxb]
  exact h.1.2

/-- C9 witness: the invariant applied to the stock limiter (rate 2,
burst 5) and a two-call sequence. -/
theorem rate_limiter_tokens_invariant_witness :
    0 ≤ (RateLimiter.init 2 5 0).tokens ∧ (RateLimiter.init 2 5 0).tokens ≤ (5 : ℚ) :=
  rate_limiter_tokens_invariant 2 5 0 [1, 2] (by norm_num) (by norm_num)
    (by norm_num [List.chain_cons]) (RateLimiter.init 2 5 0)
    (by simp [statesAlong])

/-! ## C1 — staleness gating of reads (corrected) -/

/-- A freshly started scraper holding one stale stored document: no
refresh has ever been recorded (no sports cache, zero upstream calls). -/
def freshProcess : ScraperState :=
  { projStore := [pointsDoc]
    sportsCache := none
    sportsCacheTime := 0
    upstreamCalls := 0 }

/-- C1 counterexample: on a state where no prior refresh is recorded at
all, a projections read proceeds straight from the store — it returns the
stored document, leaves the state untouched, and performs zero upstream
calls, i.e. no `_refresh_projections_from_api` is triggered before the
read, contrary to the claimed stale-triggers-refresh behaviour
(`get_projections`, scraper.py lines 375-461, contains no staleness check
and no refresh call; its `force_refresh` parameter is never read). -/
theorem projections_read_ignores_staleness :
    freshProcess.upstreamCalls = 0 ∧
    (get_projections freshProcess none none none false none none).2 = freshProcess ∧
    (get_projections freshProcess none none none false none none).2.upstreamCalls = 0 ∧
    (get_projections freshProcess none none none false none none).1.items = [pointsDoc] := by
  exact ⟨rfl, rfl, rfl, by decide⟩

/-- C1 amended: projections reads are always served directly from the
store and never trigger a refresh or contact the upstream service,
whatever the refresh timestamps; the 15-minute time-to-live applies only
to the sports read (`get_sports`), which serves its in-memory cache when
the cache is non-empty and younger than the TTL and otherwise (cache
absent, empty, or expired) fetches from the upstream service before
returning. -/
theorem read_paths_cache_behaviour (st : ScraperState) (sport_id : Option Int)
    (pn sty : Option String) (fr : Bool) (page ps : Option ℕ) (now : ℚ)
    (upstream : List SportRec) :
    ((get_projections st sport_id pn sty fr page ps).2 = st) ∧
    ((get_projections st sport_id pn sty fr page ps).1
        = get_projections_read st.projStore sport_id pn sty page ps) ∧
    (∀ l, st.sportsCache = some l → l ≠ [] →
        now - st.sportsCacheTime < CACHE_EXPIRY →
        get_sports st now upstream = (l, st)) ∧
    ((st.sportsCache = none ∨ ¬ now - st.sportsCacheTime < CACHE_EXPIRY) →
        (get_sports st now upstream).1 = upstream ∧
        (get_sports st now upstream).2.upstreamCalls = st.upstreamCalls + 1 ∧
        (get_sports st now upstream).2.projStore = st.projStore) := by
  refine ⟨rfl, rfl, ?_, ?_⟩
  · intro l hl hne hfresh
    unfold get_sports
    rw [hl]
    have hne2 : l.isEmpty = false := by
      cases l with
      | nil => exact absurd rfl hne
      | cons a l => rfl
    simp [hne2, hfresh]
  · intro hcase
    rcases hcase with hnone | hstale
    · unfold get_sports
      rw [hnone]
      simp
    · unfold get_sports
      have hcond : decide (now - st.sportsCacheTime < CACHE_EXPIRY) = false := by
        simpa using hstale
      cases hc : st.sportsCache with
      | none => simp [hcond]
      | some l => simp [hcond]

/-- C1 witness: the amended theorem applied at a concrete state — a
projections read leaves the state unchanged, a fresh non-empty sports
cache is served without an upstream call, and an expired cache triggers a
fetch. -/
theorem read_paths_cache_behaviour_witness :
    (get_projections freshProcess none none none false none none).2 = freshProcess ∧
    get_sports
      { projStore := [], sportsCache := some [⟨7, "NBA", true⟩],
        sportsCacheTime := 0, upstreamCalls := 1 } 100 []
      = ([⟨7, "NBA", true⟩],
         { projStore := [], sportsCache := some [⟨7, "NBA", true⟩],
           sportsCacheTime := 0, upstreamCalls := 1 }) ∧
    (get_sports freshProcess 0 [⟨7, "NBA", true⟩]).2.upstreamCalls
      = freshProcess.upstreamCalls + 1 :=
  ⟨(read_paths_cache_behaviour freshProcess none none none false none none 0 []).1,
   (read_paths_cache_behaviour
      { projStore := [], sportsCache := some [⟨7, "NBA", true⟩],
        sportsCacheTime := 0, upstreamCalls := 1 } none none none false none none
      100 []).2.2.1 [⟨7, "NBA", true⟩] rfl (by decide) (by norm_num [CACHE_EXPIRY]),
   ((read_paths_cache_behaviour freshProcess none none none false none none
      0 [⟨7, "NBA", true⟩]).2.2.2 (Or.inl rfl)).2.1⟩

end FantasyScraper
